import Mathlib

/-!
Shallow embedding of `controller/api/destination/endpoint_translator.go`
(linkerd2 destination service endpoint translator): address sets, the
topology filter, the incremental diff engine, the translator state machine
(Add / Remove / NoEndpoints) and the wire translation of endpoints.

Go maps are modelled as association lists (`List (key × value)`); map
iteration order in Go is unspecified, and every property proved here is
order-insensitive or stated up to membership/lookups. Fallible calls
(address parsing) are modelled with `Option`. Wire messages are collected
into an explicit output list instead of being sent on a stream.
-/

/-- `watcher.ID`, the key identifying one endpoint. Modelled as an opaque
string key (equality/hash-stable, used only as a map key). -/
abbrev ID := String

/-- Modelled from the spec: the workload (pod) metadata record carried by a
workload-backed endpoint — `corev1.Pod` is outside `src/`. The spec treats
service account and namespace as opaque inputs of the translation step, so
they are stored as fields (`k8s.GetServiceAccountAndNS`). -/
structure Pod where
  Labels : List (String × String)
  Annotations : List (String × String)
  ServiceAccount : String
  Namespace : String
deriving Repr, DecidableEq

/-- Modelled from the spec: `watcher.Address` is outside `src/`; its fields
are the ones the spec's data model lists and the translator reads — network
address (IP, port), optional owning workload, pre-resolved identity string,
authority-override string, topology labels. -/
structure Address where
  IP : String
  Port : Nat
  Pod : Option Pod
  OwnerKind : String
  OwnerName : String
  TopologyLabels : List (String × String)
  Identity : String
  AuthorityOverride : String
deriving Repr, DecidableEq

/-- Modelled from the spec: `watcher.AddressSet` is outside `src/` —
a mapping of endpoint id to endpoint, set-level metric labels, and the
ordered topology preference list. -/
structure AddressSet where
  Addresses : List (ID × Address)
  Labels : List (String × String)
  TopologicalPref : List String
deriving Repr, DecidableEq

/-- Go map read with the string zero value: `m[k]` yields `""` when `k` is
absent (used for `address.TopologyLabels[pref]` and pod label/annotation
reads). -/
def lookupD : List (String × String) → String → String
  | [], _ => ""
  | p :: rest, k => if p.1 = k then p.2 else lookupD rest k

/-- Go map read with the `value, ok` form: `v, ok := m[k]`. -/
def lookupOpt : List (String × String) → String → Option String
  | [], _ => none
  | p :: rest, k => if p.1 = k then some p.2 else lookupOpt rest k

/-- Lookup of an endpoint id in an address map. -/
def lookupID : List (ID × Address) → ID → Option Address
  | [], _ => none
  | p :: rest, id => if p.1 = id then some p.2 else lookupID rest id

/-- Go map write `m[id] = address` (overwrites on key collision). -/
def mapInsert (l : List (ID × Address)) (id : ID) (a : Address) :
    List (ID × Address) :=
  l.filter (fun p => decide (p.1 ≠ id)) ++ [(id, a)]

/-- Go `delete(m, id)`. -/
def mapDelete (l : List (ID × Address)) (id : ID) : List (ID × Address) :=
  l.filter (fun p => decide (p.1 ≠ id))

/-- `newEmptyAddressSet`. -/
def newEmptyAddressSet : AddressSet :=
  { Addresses := [], Labels := [], TopologicalPref := [] }

/-- The per-stream configuration of the translator fixed at construction:
own control-plane namespace, identity trust domain, H2-upgrade switch and
the client node's topology labels. -/
structure Config where
  controllerNS : String
  identityTrustDomain : String
  enableH2Upgrade : Bool
  nodeTopologyLabels : List (String × String)

/-- The mutable translator state: full known membership and the filtered
view last delivered to the client. -/
structure TranslatorState where
  availableEndpoints : AddressSet
  filteredSnapshot : AddressSet
deriving Repr, DecidableEq

/-- The initial state of `newEndpointTranslator`: both sets empty. -/
def initTranslatorState : TranslatorState :=
  { availableEndpoints := newEmptyAddressSet
    filteredSnapshot := newEmptyAddressSet }

/-- The loop of `filterAddresses` over the preference list, carrying the
`filtered` map accumulated across iterations exactly as the Go loop does:
a `"*"` tier returns the full available set, a tier whose client locality
is unknown is skipped, and the first tier leaving the accumulator
non-empty returns it. Falling off the list returns `newEmptyAddressSet`. -/
def filterLoop (cfg : Config) (avail : AddressSet)
    (filtered : List (ID × Address)) : List String → AddressSet
  | [] => newEmptyAddressSet
  | pref :: rest =>
    if pref = "*" then avail
    else
      match lookupOpt cfg.nodeTopologyLabels pref with
      | none => filterLoop cfg avail filtered rest
      | some srcLocality =>
        let filtered' := filtered ++ avail.Addresses.filter
          (fun p => decide (lookupD p.2.TopologyLabels pref = srcLocality))
        if 0 < filtered'.length then
          { Addresses := filtered', Labels := avail.Labels,
            TopologicalPref := [] }
        else filterLoop cfg avail filtered' rest

/-- `filterAddresses`: no preference means a copy of the full available
set; otherwise run the tier loop. -/
def filterAddresses (cfg : Config) (avail : AddressSet) : AddressSet :=
  if avail.TopologicalPref.length = 0 then
    { Addresses := avail.Addresses, Labels := avail.Labels,
      TopologicalPref := [] }
  else filterLoop cfg avail [] avail.TopologicalPref

/-- `diffEndpoints`: entries of `filtered` absent from the snapshot become
`add`, entries of the snapshot absent from `filtered` become `remove`;
both carry `filtered`'s labels. -/
def diffEndpoints (snapshot filtered : AddressSet) :
    AddressSet × AddressSet :=
  let add := filtered.Addresses.filter
    (fun p => (lookupID snapshot.Addresses p.1).isNone)
  let remove := snapshot.Addresses.filter
    (fun p => (lookupID filtered.Addresses p.1).isNone)
  ({ Addresses := add, Labels := filtered.Labels, TopologicalPref := [] },
   { Addresses := remove, Labels := filtered.Labels, TopologicalPref := [] })

/-- `defaultWeight`. -/
def defaultWeight : Nat := 10000

/-- Modelled from the spec: `k8s.ControllerNSLabel` lives outside `src/`;
the pod label naming the control plane controlling the workload. -/
def controllerNSLabel : String := "linkerd.io/control-plane-ns"

/-- Modelled from the spec: `k8s.IdentityModeAnnotation` lives outside
`src/`; the pod annotation holding the workload's identity mode. -/
def identityModeAnnotation : String := "linkerd.io/identity-mode"

/-- Modelled from the spec: `k8s.IdentityModeDefault` lives outside
`src/`; the default identity-mode value a workload opts into. -/
def identityModeDefault : String := "default"

/-- Modelled from the spec: `k8s.GetPodLabels` lives outside `src/`; the
spec treats the workload-derived labels as an opaque input of translation,
so they are taken to be the pod's own labels. -/
def getPodLabels (ownerKind ownerName : String) (pod : Pod) :
    List (String × String) :=
  let _ := ownerKind
  let _ := ownerName
  pod.Labels

/-- `net.TcpAddress`: the bare wire address (IP as parsed number, port). -/
structure TcpAddress where
  Ip : Nat
  Port : Nat
deriving Repr, DecidableEq

/-- `pb.WeightedAddr`, flattened to its semantic fields: the nested
`TlsIdentity` / `ProtocolHint` messages carry only the identity name
respectively the presence of the H2 hint. -/
structure WeightedAddr where
  Addr : TcpAddress
  Weight : Nat
  MetricLabels : List (String × String)
  TlsIdentity : Option String
  ProtocolHint : Option Unit
  AuthorityOverride : Option String
deriving Repr, DecidableEq

/-- The wire messages the translator emits on the stream. -/
inductive Message where
  | add : List WeightedAddr → List (String × String) → Message
  | remove : List TcpAddress → Message
  | noEndpoints : Bool → Message
deriving Repr, DecidableEq

/-- `toAddr`: parse the endpoint's IP and pair it with the port. The
parser `addr.ParseProxyIPV4` lives outside `src/` and is modelled from the
spec as an abstract fallible parser passed in as a parameter. -/
def toAddr (parse : String → Option Nat) (a : Address) :
    Option TcpAddress :=
  match parse a.IP with
  | none => none
  | some ip => some { Ip := ip, Port := a.Port }

/-- `toWeightedAddr`: translation of a workload-backed endpoint — derives
the H2 hint from `enableH2Upgrade` and a non-empty controller namespace,
and the identity from the trust domain, matching controller namespace and
default identity mode; fails iff the address fails to parse. -/
def toWeightedAddr (parse : String → Option Nat) (cfg : Config)
    (a : Address) (pod : Pod) : Option WeightedAddr :=
  let controllerNS := lookupD pod.Labels controllerNSLabel
  let labels := getPodLabels a.OwnerKind a.OwnerName pod
  let hint : Option Unit :=
    if cfg.enableH2Upgrade ∧ controllerNS ≠ "" then some () else none
  let identity : Option String :=
    if cfg.identityTrustDomain ≠ "" ∧ controllerNS = cfg.controllerNS ∧
        lookupD pod.Annotations identityModeAnnotation = identityModeDefault
    then
      some (pod.ServiceAccount ++ "." ++ pod.Namespace ++
        ".serviceaccount.identity." ++ controllerNS ++ "." ++
        cfg.identityTrustDomain)
    else none
  match toAddr parse a with
  | none => none
  | some tcpAddr =>
    some { Addr := tcpAddr, Weight := defaultWeight, MetricLabels := labels,
           TlsIdentity := identity, ProtocolHint := hint,
           AuthorityOverride := none }

/-- The body of `sendClientAdd`'s loop for one endpoint: the
workload-backed branch delegates to `toWeightedAddr`; the bare branch
attaches the authority override when non-empty, the pre-resolved identity
when present, and — only inside the identity-present case — the H2 hint
when upgrade is enabled. `none` when the address fails to parse (the loop
`continue`s). -/
def mkWeightedAddr (parse : String → Option Nat) (cfg : Config)
    (a : Address) : Option WeightedAddr :=
  match a.Pod with
  | some pod => toWeightedAddr parse cfg a pod
  | none =>
    let authOverride : Option String :=
      if a.AuthorityOverride ≠ "" then some a.AuthorityOverride else none
    match toAddr parse a with
    | none => none
    | some tcpAddr =>
      some { Addr := tcpAddr, Weight := defaultWeight, MetricLabels := [],
             TlsIdentity := if a.Identity ≠ "" then some a.Identity else none,
             ProtocolHint :=
               if a.Identity ≠ "" ∧ cfg.enableH2Upgrade then some () else none,
             AuthorityOverride := authOverride }

/-- The loop of `sendClientAdd`: translate each endpoint, skipping those
whose translation fails. -/
def clientAddAddrs (parse : String → Option Nat) (cfg : Config) :
    List (ID × Address) → List WeightedAddr
  | [] => []
  | p :: rest =>
    match mkWeightedAddr parse cfg p.2 with
    | none => clientAddAddrs parse cfg rest
    | some wa => wa :: clientAddAddrs parse cfg rest

/-- The loop of `sendClientRemove`: translate each endpoint to a bare
address, skipping those whose translation fails. -/
def clientRemoveAddrs (parse : String → Option Nat) :
    List (ID × Address) → List TcpAddress
  | [] => []
  | p :: rest =>
    match toAddr parse p.2 with
    | none => clientRemoveAddrs parse rest
    | some tcpAddr => tcpAddr :: clientRemoveAddrs parse rest

/-- `sendFilteredUpdate`: adopt the incoming set's labels and preference
onto `availableEndpoints`, filter, diff against the snapshot, emit an add
message when the add diff is non-empty and a remove message when the
remove diff is non-empty, and replace the snapshot wholesale by the
filtered set. Called after the caller has already folded the incoming
addresses into `availableEndpoints.Addresses`. -/
def sendFilteredUpdate (parse : String → Option Nat) (cfg : Config)
    (s : TranslatorState) (set : AddressSet) :
    TranslatorState × List Message :=
  let avail : AddressSet :=
    { Addresses := s.availableEndpoints.Addresses, Labels := set.Labels,
      TopologicalPref := set.TopologicalPref }
  let filtered := filterAddresses cfg avail
  let diffs := diffEndpoints s.filteredSnapshot filtered
  let addMsgs :=
    if 0 < diffs.1.Addresses.length then
      [Message.add (clientAddAddrs parse cfg diffs.1.Addresses)
        diffs.1.Labels]
    else []
  let removeMsgs :=
    if 0 < diffs.2.Addresses.length then
      [Message.remove (clientRemoveAddrs parse diffs.2.Addresses)]
    else []
  ({ availableEndpoints := avail, filteredSnapshot := filtered },
   addMsgs ++ removeMsgs)

/-- `Add`: fold every incoming `(id, endpoint)` into the available map
(overwriting on collision), then run the filtered update. -/
def translatorAdd (parse : String → Option Nat) (cfg : Config)
    (s : TranslatorState) (set : AddressSet) :
    TranslatorState × List Message :=
  let merged := set.Addresses.foldl
    (fun acc p => mapInsert acc p.1 p.2) s.availableEndpoints.Addresses
  sendFilteredUpdate parse cfg
    { s with availableEndpoints := { s.availableEndpoints with Addresses := merged } }
    set

/-- `Remove`: delete every incoming id from the available map, then run
the filtered update. -/
def translatorRemove (parse : String → Option Nat) (cfg : Config)
    (s : TranslatorState) (set : AddressSet) :
    TranslatorState × List Message :=
  let pruned := set.Addresses.foldl
    (fun acc p => mapDelete acc p.1) s.availableEndpoints.Addresses
  sendFilteredUpdate parse cfg
    { s with availableEndpoints := { s.availableEndpoints with Addresses := pruned } }
    set

/-- `NoEndpoints`: clear both address maps and emit a single NoEndpoints
message carrying `exists`. -/
def translatorNoEndpoints (s : TranslatorState) (ex : Bool) :
    TranslatorState × List Message :=
  ({ availableEndpoints := { s.availableEndpoints with Addresses := [] },
     filteredSnapshot := { s.filteredSnapshot with Addresses := [] } },
   [Message.noEndpoints ex])

/-- One operation of the translator's external interface. -/
inductive Op where
  | add : AddressSet → Op
  | remove : AddressSet → Op
  | noEndpoints : Bool → Op
deriving Repr

/-- One step of the state machine, dropping the emitted messages. -/
def stepState (parse : String → Option Nat) (cfg : Config)
    (s : TranslatorState) : Op → TranslatorState
  | Op.add set => (translatorAdd parse cfg s set).1
  | Op.remove set => (translatorRemove parse cfg s set).1
  | Op.noEndpoints ex => (translatorNoEndpoints s ex).1

/-- Run a sequence of operations from a starting state. -/
def runOps (parse : String → Option Nat) (cfg : Config)
    (s : TranslatorState) : List Op → TranslatorState
  | [] => s
  | op :: rest => runOps parse cfg (stepState parse cfg s op) rest

/-- Key membership in an address map. -/
def hasKey (l : List (ID × Address)) (id : ID) : Bool :=
  (lookupID l id).isSome

/-- Whether a wire message is an add message. -/
def Message.isAdd : Message → Bool
  | Message.add _ _ => true
  | _ => false

/-- The endpoints matching one preference tier: empty when the client's
locality for the tier is unknown, otherwise the endpoints whose topology
value for the tier equals the client's. -/
def tierMatches (cfg : Config) (avail : AddressSet) (pref : String) :
    List (ID × Address) :=
  match lookupOpt cfg.nodeTopologyLabels pref with
  | none => []
  | some srcLocality =>
    avail.Addresses.filter
      (fun p => decide (lookupD p.2.TopologyLabels pref = srcLocality))

lemma lookupID_filter_key (l : List (ID × Address)) (q : ID → Bool)
    (id : ID) :
    lookupID (l.filter (fun p => q p.1)) id =
      if q id then lookupID l id else none := by
  induction l with
  | nil => simp [lookupID]
  | cons p rest ih =>
    by_cases hq : q p.1
    · rw [List.filter_cons_of_pos (by simpa using hq)]
      by_cases hk : p.1 = id
      · subst hk
        simp [lookupID, hq]
      · simp [lookupID, hk, ih]
    · rw [List.filter_cons_of_neg (by simpa using hq)]
      by_cases hk : p.1 = id
      · subst hk
        simp [lookupID, hq, ih]
      · simp [lookupID, hk, ih]

lemma filterLoop_skip (cfg : Config) (avail : AddressSet)
    (pre rest : List String)
    (h : ∀ p ∈ pre, p ≠ "*" ∧ tierMatches cfg avail p = []) :
    filterLoop cfg avail [] (pre ++ rest) =
      filterLoop cfg avail [] rest := by
  induction pre with
  | nil => rfl
  | cons p ps ih =>
    obtain ⟨hstar, hmatch⟩ := h p (List.mem_cons_self p ps)
    have hrec := ih (fun q hq => h q (List.mem_cons_of_mem p hq))
    show filterLoop cfg avail [] (p :: (ps ++ rest)) = _
    rw [filterLoop, if_neg hstar]
    cases hlk : lookupOpt cfg.nodeTopologyLabels p with
    | none => exact hrec
    | some loc =>
      have hfil : avail.Addresses.filter
          (fun q => decide (lookupD q.2.TopologyLabels p = loc)) = [] := by
        simpa [tierMatches, hlk] using hmatch
      simp only [hfil, List.nil_append, List.length_nil, lt_irrefl,
        if_false]
      exact hrec

/-- C1: immediately after any Add or Remove call completes, the snapshot
equals (wholesale, not merged) the result of applying the topology filter
to the then-current available endpoints. -/
theorem C1_snapshot_convergence (parse : String → Option Nat)
    (cfg : Config) (s : TranslatorState) (set : AddressSet) :
    (translatorAdd parse cfg s set).1.filteredSnapshot =
      filterAddresses cfg
        (translatorAdd parse cfg s set).1.availableEndpoints ∧
    (translatorRemove parse cfg s set).1.filteredSnapshot =
      filterAddresses cfg
        (translatorRemove parse cfg s set).1.availableEndpoints :=
  ⟨rfl, rfl⟩

/-- C2: `diffEndpoints` puts into `toAdd` exactly the ids of the filtered
set absent from the snapshot, into `toRemove` exactly the ids of the
snapshot absent from the filtered set; no id lands in both and their union
is the symmetric difference of the two id sets. -/
theorem C2_diff_minimality (snapshot filtered : AddressSet) (id : ID) :
    (hasKey (diffEndpoints snapshot filtered).1.Addresses id = true ↔
      (hasKey filtered.Addresses id = true ∧
        hasKey snapshot.Addresses id = false)) ∧
    (hasKey (diffEndpoints snapshot filtered).2.Addresses id = true ↔
      (hasKey snapshot.Addresses id = true ∧
        hasKey filtered.Addresses id = false)) ∧
    ¬(hasKey (diffEndpoints snapshot filtered).1.Addresses id = true ∧
      hasKey (diffEndpoints snapshot filtered).2.Addresses id = true) ∧
    ((hasKey (diffEndpoints snapshot filtered).1.Addresses id = true ∨
      hasKey (diffEndpoints snapshot filtered).2.Addresses id = true) ↔
      hasKey filtered.Addresses id ≠ hasKey snapshot.Addresses id) := by
  have h1 : lookupID (diffEndpoints snapshot filtered).1.Addresses id =
      if (lookupID snapshot.Addresses id).isNone then
        lookupID filtered.Addresses id
      else none :=
    lookupID_filter_key filtered.Addresses
      (fun k => (lookupID snapshot.Addresses k).isNone) id
  have h2 : lookupID (diffEndpoints snapshot filtered).2.Addresses id =
      if (lookupID filtered.Addresses id).isNone then
        lookupID snapshot.Addresses id
      else none :=
    lookupID_filter_key snapshot.Addresses
      (fun k => (lookupID filtered.Addresses k).isNone) id
  rcases hs : lookupID snapshot.Addresses id with _ | a <;>
    rcases hf : lookupID filtered.Addresses id with _ | b <;>
      simp [hasKey, h1, h2, hs, hf]

/-- C6: `NoEndpoints` clears both the available set and the snapshot to
empty and emits exactly one NoEndpoints message carrying `exists`,
unconditionally, from any prior state. -/
theorem C6_noEndpoints_reset (s : TranslatorState) (ex : Bool) :
    (translatorNoEndpoints s ex).1.availableEndpoints.Addresses = [] ∧
    (translatorNoEndpoints s ex).1.filteredSnapshot.Addresses = [] ∧
    (translatorNoEndpoints s ex).2 = [Message.noEndpoints ex] :=
  ⟨rfl, rfl, rfl⟩

/-- C3: when every tier before `t` is non-wildcard and yields no match,
`t` is non-wildcard, the client's locality for `t` is known and at least
one endpoint matches it, the filter returns exactly the endpoints whose
topology value for `t` equals the client's value — later tiers are never
consulted and matches are not aggregated across tiers. -/
theorem C3_tier_precedence (cfg : Config) (avail : AddressSet)
    (pre rest : List String) (t loc : String)
    (hpref : avail.TopologicalPref = pre ++ t :: rest)
    (hpre : ∀ p ∈ pre, p ≠ "*" ∧ tierMatches cfg avail p = [])
    (hstar : t ≠ "*")
    (hloc : lookupOpt cfg.nodeTopologyLabels t = some loc)
    (hmatch : avail.Addresses.filter
      (fun p => decide (lookupD p.2.TopologyLabels t = loc)) ≠ []) :
    (filterAddresses cfg avail).Addresses =
      avail.Addresses.filter
        (fun p => decide (lookupD p.2.TopologyLabels t = loc)) := by
  have hlen : ¬ avail.TopologicalPref.length = 0 := by
    rw [hpref]; simp
  rw [filterAddresses, if_neg hlen, hpref,
    filterLoop_skip cfg avail pre (t :: rest) hpre, filterLoop,
    if_neg hstar, hloc]
  simp only [List.nil_append]
  rw [if_pos (List.length_pos.mpr hmatch)]

/-- Witness inputs for the tier-precedence theorem: preference
`["zone", "region"]`, client in zone `a` / region `r`; `e1` shares the
zone, `e2` only the region. -/
def c3Cfg : Config :=
  { controllerNS := "", identityTrustDomain := "", enableH2Upgrade := false,
    nodeTopologyLabels := [("zone", "a"), ("region", "r")] }

def c3Addr1 : Address :=
  { IP := "10.0.0.1", Port := 80, Pod := none, OwnerKind := "",
    OwnerName := "", TopologyLabels := [("zone", "a"), ("region", "r")],
    Identity := "", AuthorityOverride := "" }

def c3Addr2 : Address :=
  { IP := "10.0.0.2", Port := 80, Pod := none, OwnerKind := "",
    OwnerName := "", TopologyLabels := [("zone", "b"), ("region", "r")],
    Identity := "", AuthorityOverride := "" }

def c3Avail : AddressSet :=
  { Addresses := [("e1", c3Addr1), ("e2", c3Addr2)], Labels := [],
    TopologicalPref := ["zone", "region"] }

theorem C3_tier_precedence_witness :
    (filterAddresses c3Cfg c3Avail).Addresses =
      c3Avail.Addresses.filter
        (fun p => decide (lookupD p.2.TopologyLabels "zone" = "a")) ∧
    (filterAddresses c3Cfg c3Avail).Addresses = [("e1", c3Addr1)] :=
  ⟨C3_tier_precedence c3Cfg c3Avail [] ["region"] "zone" "a" rfl
      (by simp) (by decide) (by decide) (by decide),
    by decide⟩

/-- C4: when every tier before a wildcard tier is non-wildcard and yields
no match, the filter returns the entire available set the moment it
reaches the wildcard. -/
theorem C4_wildcard_short_circuit (cfg : Config) (avail : AddressSet)
    (pre rest : List String)
    (hpref : avail.TopologicalPref = pre ++ "*" :: rest)
    (hpre : ∀ p ∈ pre, p ≠ "*" ∧ tierMatches cfg avail p = []) :
    filterAddresses cfg avail = avail := by
  have hlen : ¬ avail.TopologicalPref.length = 0 := by
    rw [hpref]; simp
  rw [filterAddresses, if_neg hlen, hpref,
    filterLoop_skip cfg avail pre ("*" :: rest) hpre, filterLoop,
    if_pos rfl]

/-- Witness inputs for the wildcard theorem: preference `["zone", "*"]`
and no zone match. -/
def c4Cfg : Config :=
  { controllerNS := "", identityTrustDomain := "", enableH2Upgrade := false,
    nodeTopologyLabels := [("zone", "a")] }

def c4Avail : AddressSet :=
  { Addresses := [("e1", c3Addr2)], Labels := [],
    TopologicalPref := ["zone", "*"] }

theorem C4_wildcard_short_circuit_witness :
    tierMatches c4Cfg c4Avail "zone" = [] ∧
    filterAddresses c4Cfg c4Avail = c4Avail :=
  ⟨by decide,
    C4_wildcard_short_circuit c4Cfg c4Avail ["zone"] [] rfl (by decide)⟩

/-- C5: with a non-empty preference list, no wildcard tier and no tier
producing a match, the filter returns the empty set, and diffing a prior
snapshot against it puts every previously-sent entry into `toRemove` and
nothing into `toAdd`. -/
theorem C5_no_tier_match_empty (cfg : Config) (avail snap : AddressSet)
    (hne : avail.TopologicalPref ≠ [])
    (h : ∀ p ∈ avail.TopologicalPref,
      p ≠ "*" ∧ tierMatches cfg avail p = []) :
    (filterAddresses cfg avail).Addresses = [] ∧
    (diffEndpoints snap (filterAddresses cfg avail)).1.Addresses = [] ∧
    (diffEndpoints snap (filterAddresses cfg avail)).2.Addresses =
      snap.Addresses := by
  have hlen : ¬ avail.TopologicalPref.length = 0 := by
    simpa using hne
  have hF : filterAddresses cfg avail = newEmptyAddressSet := by
    rw [filterAddresses, if_neg hlen]
    have h2 := filterLoop_skip cfg avail avail.TopologicalPref [] h
    rw [List.append_nil] at h2
    rw [h2]
    rfl
  rw [hF]
  refine ⟨rfl, rfl, ?_⟩
  simp [diffEndpoints, lookupID, newEmptyAddressSet]

/-- Witness inputs for the no-tier-match theorem: preference `["zone"]`,
empty client topology (failed node lookup), a known endpoint, and a
non-empty prior snapshot. -/
def c5Cfg : Config :=
  { controllerNS := "", identityTrustDomain := "", enableH2Upgrade := false,
    nodeTopologyLabels := [] }

def c5Avail : AddressSet :=
  { Addresses := [("e1", c3Addr1)], Labels := [],
    TopologicalPref := ["zone"] }

def c5Snap : AddressSet :=
  { Addresses := [("e1", c3Addr1), ("e2", c3Addr2)], Labels := [],
    TopologicalPref := [] }

theorem C5_no_tier_match_empty_witness :
    (filterAddresses c5Cfg c5Avail).Addresses = [] ∧
    (diffEndpoints c5Snap (filterAddresses c5Cfg c5Avail)).1.Addresses
      = [] ∧
    (diffEndpoints c5Snap (filterAddresses c5Cfg c5Avail)).2.Addresses
      = c5Snap.Addresses :=
  C5_no_tier_match_empty c5Cfg c5Avail c5Snap (by decide) (by decide)

/-- C7: a successfully translated workload-backed endpoint carries a
derived identity iff the trust domain is non-empty, the workload's
controller namespace equals the instance's own namespace and its
identity-mode annotation is the default value — with exactly the
documented identity string — and carries an H2 hint iff upgrade is
enabled and the workload is controlled by any control plane; weight and
labels are unaffected by either condition. -/
theorem C7_identity_gating (parse : String → Option Nat) (cfg : Config)
    (a : Address) (pod : Pod) (wa : WeightedAddr)
    (h : toWeightedAddr parse cfg a pod = some wa) :
    wa.TlsIdentity =
      (if cfg.identityTrustDomain ≠ "" ∧
          lookupD pod.Labels controllerNSLabel = cfg.controllerNS ∧
          lookupD pod.Annotations identityModeAnnotation =
            identityModeDefault
        then
          some (pod.ServiceAccount ++ "." ++ pod.Namespace ++
            ".serviceaccount.identity." ++
            lookupD pod.Labels controllerNSLabel ++ "." ++
            cfg.identityTrustDomain)
        else none) ∧
    wa.ProtocolHint =
      (if cfg.enableH2Upgrade ∧ lookupD pod.Labels controllerNSLabel ≠ ""
        then some () else none) ∧
    wa.Weight = defaultWeight ∧
    wa.MetricLabels = getPodLabels a.OwnerKind a.OwnerName pod := by
  cases htcp : toAddr parse a with
  | none =>
    rw [toWeightedAddr, htcp] at h
    exact absurd h (by simp)
  | some tcpAddr =>
    rw [toWeightedAddr, htcp, Option.some.injEq] at h
    subst h
    exact ⟨rfl, rfl, rfl, rfl⟩

/-- Witness inputs for identity gating: all three identity conditions
hold and H2 upgrade is enabled. -/
def c7Parse : String → Option Nat := fun _ => some 3

def c7Cfg : Config :=
  { controllerNS := "linkerd", identityTrustDomain := "cluster.local",
    enableH2Upgrade := true, nodeTopologyLabels := [] }

def c7Pod : Pod :=
  { Labels := [("linkerd.io/control-plane-ns", "linkerd")],
    Annotations := [("linkerd.io/identity-mode", "default")],
    ServiceAccount := "sa", Namespace := "ns" }

def c7Addr : Address :=
  { IP := "10.0.0.3", Port := 443, Pod := some c7Pod, OwnerKind := "",
    OwnerName := "", TopologyLabels := [], Identity := "",
    AuthorityOverride := "" }

def c7WA : WeightedAddr :=
  { Addr := { Ip := 3, Port := 443 }, Weight := 10000,
    MetricLabels := [("linkerd.io/control-plane-ns", "linkerd")],
    TlsIdentity :=
      some "sa.ns.serviceaccount.identity.linkerd.cluster.local",
    ProtocolHint := some (), AuthorityOverride := none }

theorem C7_identity_gating_witness :
    toWeightedAddr c7Parse c7Cfg c7Addr c7Pod = some c7WA ∧
    (c7WA.TlsIdentity =
      (if c7Cfg.identityTrustDomain ≠ "" ∧
          lookupD c7Pod.Labels controllerNSLabel = c7Cfg.controllerNS ∧
          lookupD c7Pod.Annotations identityModeAnnotation =
            identityModeDefault
        then
          some (c7Pod.ServiceAccount ++ "." ++ c7Pod.Namespace ++
            ".serviceaccount.identity." ++
            lookupD c7Pod.Labels controllerNSLabel ++ "." ++
            c7Cfg.identityTrustDomain)
        else none) ∧
    c7WA.ProtocolHint =
      (if c7Cfg.enableH2Upgrade ∧
          lookupD c7Pod.Labels controllerNSLabel ≠ ""
        then some () else none) ∧
    c7WA.Weight = defaultWeight ∧
    c7WA.MetricLabels =
      getPodLabels c7Addr.OwnerKind c7Addr.OwnerName c7Pod) :=
  ⟨by decide, C7_identity_gating c7Parse c7Cfg c7Addr c7Pod c7WA
    (by decide)⟩

/-- Inputs refuting the claimed identity-independence of the H2 hint for
endpoints without workload metadata: upgrade is enabled, the bare
endpoint translates successfully, its identity is empty — and no hint is
attached, because the source only sets the hint inside the
identity-present branch. -/
def c8Parse : String → Option Nat := fun _ => some 1

def c8Cfg : Config :=
  { controllerNS := "", identityTrustDomain := "",
    enableH2Upgrade := true, nodeTopologyLabels := [] }

def c8Addr : Address :=
  { IP := "10.0.0.4", Port := 80, Pod := none, OwnerKind := "",
    OwnerName := "", TopologyLabels := [], Identity := "",
    AuthorityOverride := "" }

/-- C8 counterexample: with upgrade enabled and no workload metadata, an
endpoint whose pre-resolved identity is empty is translated without an H2
hint — the hint is not attached independently of the identity. -/
theorem C8_hint_needs_identity_counterexample :
    c8Cfg.enableH2Upgrade = true ∧
    c8Addr.Pod = none ∧
    c8Addr.Identity = "" ∧
    (mkWeightedAddr c8Parse c8Cfg c8Addr).map WeightedAddr.ProtocolHint =
      some none := by
  decide

/-- C8 (amended): a successfully translated endpoint without workload
metadata uses the default weight, carries the authority override iff
non-empty and the pre-resolved identity iff present, and carries an H2
hint iff the identity is present and upgrade is enabled (the hint is not
independent of the identity). -/
theorem C8_no_workload_translation (parse : String → Option Nat)
    (cfg : Config) (a : Address) (wa : WeightedAddr)
    (hpod : a.Pod = none)
    (h : mkWeightedAddr parse cfg a = some wa) :
    wa.Weight = defaultWeight ∧
    wa.AuthorityOverride =
      (if a.AuthorityOverride ≠ "" then some a.AuthorityOverride
        else none) ∧
    wa.TlsIdentity = (if a.Identity ≠ "" then some a.Identity else none) ∧
    wa.ProtocolHint =
      (if a.Identity ≠ "" ∧ cfg.enableH2Upgrade then some () else none) := by
  cases htcp : toAddr parse a with
  | none =>
    rw [mkWeightedAddr, hpod, htcp] at h
    exact absurd h (by simp)
  | some tcpAddr =>
    rw [mkWeightedAddr, hpod, htcp, Option.some.injEq] at h
    subst h
    exact ⟨rfl, rfl, rfl, rfl⟩

/-- Witness inputs for the amended no-workload translation: identity and
authority override both present, upgrade enabled. -/
def c8wAddr : Address :=
  { IP := "10.0.0.5", Port := 80, Pod := none, OwnerKind := "",
    OwnerName := "", TopologyLabels := [], Identity := "id.example",
    AuthorityOverride := "svc.example:80" }

def c8wWA : WeightedAddr :=
  { Addr := { Ip := 1, Port := 80 }, Weight := 10000, MetricLabels := [],
    TlsIdentity := some "id.example", ProtocolHint := some (),
    AuthorityOverride := some "svc.example:80" }

theorem C8_no_workload_translation_witness :
    mkWeightedAddr c8Parse c8Cfg c8wAddr = some c8wWA ∧
    (c8wWA.Weight = defaultWeight ∧
    c8wWA.AuthorityOverride =
      (if c8wAddr.AuthorityOverride ≠ "" then
        some c8wAddr.AuthorityOverride else none) ∧
    c8wWA.TlsIdentity =
      (if c8wAddr.Identity ≠ "" then some c8wAddr.Identity else none) ∧
    c8wWA.ProtocolHint =
      (if c8wAddr.Identity ≠ "" ∧ c8Cfg.enableH2Upgrade then some ()
        else none)) :=
  ⟨by decide,
    C8_no_workload_translation c8Parse c8Cfg c8wAddr c8wWA rfl (by decide)⟩

lemma clientAddAddrs_eq_filterMap (parse : String → Option Nat)
    (cfg : Config) (entries : List (ID × Address)) :
    clientAddAddrs parse cfg entries =
      entries.filterMap (fun p => mkWeightedAddr parse cfg p.2) := by
  induction entries with
  | nil => rfl
  | cons p rest ih =>
    cases h : mkWeightedAddr parse cfg p.2 with
    | none => simp [clientAddAddrs, h, ih, List.filterMap_cons]
    | some wa => simp [clientAddAddrs, h, ih, List.filterMap_cons]

lemma clientRemoveAddrs_eq_filterMap (parse : String → Option Nat)
    (entries : List (ID × Address)) :
    clientRemoveAddrs parse entries =
      entries.filterMap (fun p => toAddr parse p.2) := by
  induction entries with
  | nil => rfl
  | cons p rest ih =>
    cases h : toAddr parse p.2 with
    | none => simp [clientRemoveAddrs, h, ih, List.filterMap_cons]
    | some tcpAddr => simp [clientRemoveAddrs, h, ih, List.filterMap_cons]

/-- C9: the translator state reached by Add or Remove is the same
whatever the address parser does (failures do not corrupt the
diff/snapshot bookkeeping); the outbound batches are exactly the
per-endpoint translations that succeed, so a failing endpoint is dropped
alone while every endpoint whose translation succeeds stays in its
batch. -/
theorem C9_translation_failure_isolated (p₁ p₂ : String → Option Nat)
    (cfg : Config) (s : TranslatorState) (set : AddressSet)
    (entries : List (ID × Address)) (id : ID) (a : Address)
    (wa : WeightedAddr) (tcpAddr : TcpAddress) :
    (translatorAdd p₁ cfg s set).1 = (translatorAdd p₂ cfg s set).1 ∧
    (translatorRemove p₁ cfg s set).1 =
      (translatorRemove p₂ cfg s set).1 ∧
    clientAddAddrs p₁ cfg entries =
      entries.filterMap (fun p => mkWeightedAddr p₁ cfg p.2) ∧
    clientRemoveAddrs p₁ entries =
      entries.filterMap (fun p => toAddr p₁ p.2) ∧
    ((id, a) ∈ entries → mkWeightedAddr p₁ cfg a = some wa →
      wa ∈ clientAddAddrs p₁ cfg entries) ∧
    ((id, a) ∈ entries → toAddr p₁ a = some tcpAddr →
      tcpAddr ∈ clientRemoveAddrs p₁ entries) :=
  ⟨rfl, rfl, clientAddAddrs_eq_filterMap p₁ cfg entries,
    clientRemoveAddrs_eq_filterMap p₁ entries,
    fun hmem h => by
      rw [clientAddAddrs_eq_filterMap]
      exact List.mem_filterMap.mpr ⟨(id, a), hmem, h⟩,
    fun hmem h => by
      rw [clientRemoveAddrs_eq_filterMap]
      exact List.mem_filterMap.mpr ⟨(id, a), hmem, h⟩⟩

/-- Witness inputs for translation-failure isolation: a parser that fails
on one endpoint's address and succeeds on the other's. -/
def c9Parse : String → Option Nat :=
  fun ip => if ip = "bad" then none else some 9

def c9Bad : Address :=
  { IP := "bad", Port := 80, Pod := none, OwnerKind := "",
    OwnerName := "", TopologyLabels := [], Identity := "",
    AuthorityOverride := "" }

def c9Good : Address :=
  { IP := "10.0.0.9", Port := 80, Pod := none, OwnerKind := "",
    OwnerName := "", TopologyLabels := [], Identity := "",
    AuthorityOverride := "" }

def c9Entries : List (ID × Address) := [("b", c9Bad), ("g", c9Good)]

def c9WA : WeightedAddr :=
  { Addr := { Ip := 9, Port := 80 }, Weight := 10000, MetricLabels := [],
    TlsIdentity := none, ProtocolHint := none, AuthorityOverride := none }

theorem C9_translation_failure_isolated_witness :
    mkWeightedAddr c9Parse c8Cfg c9Bad = none ∧
    c9WA ∈ clientAddAddrs c9Parse c8Cfg c9Entries ∧
    { Ip := 9, Port := 80 : TcpAddress } ∈
      clientRemoveAddrs c9Parse c9Entries :=
  ⟨by decide,
    (C9_translation_failure_isolated c9Parse c9Parse c8Cfg
      initTranslatorState newEmptyAddressSet c9Entries "g" c9Good c9WA
      { Ip := 9, Port := 80 }).2.2.2.2.1 (by decide) (by decide),
    (C9_translation_failure_isolated c9Parse c9Parse c8Cfg
      initTranslatorState newEmptyAddressSet c9Entries "g" c9Good c9WA
      { Ip := 9, Port := 80 }).2.2.2.2.2 (by decide) (by decide)⟩

/-- Inputs exhibiting a Remove call that deletes nothing yet emits an add
message: the first Add leaves `e1` filtered out under preference
`["zone"]`; the Remove names only the unknown id `e2` but carries the
preference `["*"]`, whose adoption brings `e1` into view. -/
def c10Parse : String → Option Nat := fun _ => some 7

def c10Cfg : Config :=
  { controllerNS := "", identityTrustDomain := "",
    enableH2Upgrade := false, nodeTopologyLabels := [("zone", "a")] }

def c10Set1 : AddressSet :=
  { Addresses := [("e1", c3Addr2)], Labels := [],
    TopologicalPref := ["zone"] }

def c10Set2 : AddressSet :=
  { Addresses := [("e2", c3Addr1)], Labels := [],
    TopologicalPref := ["*"] }

def c10S1 : TranslatorState :=
  runOps c10Parse c10Cfg initTranslatorState [Op.add c10Set1]

/-- The state after the C10 Remove call. -/
def c10After : TranslatorState :=
  (translatorRemove c10Parse c10Cfg c10S1 c10Set2).1

/-- C10: from a reachable state, a Remove whose ids are all absent from
the available set (so it deletes nothing) can still emit an add wire
message, because the preference list adopted from the Remove delta brings
previously filtered-out endpoints into the client's view. -/
theorem C10_remove_can_emit_add :
    c10Set2.Addresses.all
      (fun p => !(hasKey c10S1.availableEndpoints.Addresses p.1)) = true ∧
    c10After.availableEndpoints.Addresses =
      c10S1.availableEndpoints.Addresses ∧
    (translatorRemove c10Parse c10Cfg c10S1 c10Set2).2.any
      Message.isAdd = true := by
  decide
